import Mathlib

/-!
Verification of the benchmarking-data pipeline (synthetic generator,
real-data estimator, CSV round trip, table loading) of the db_project
repository.  Machine arithmetic is modelled exactly: the generator and
the CSV layer work over `ℚ`, the estimator (which calls the real
logarithm `np.log10`) over `ℝ`.  `np.random.uniform(a, b)` is modelled
by an abstract stream `u : ℕ → K` of draws in `[0, 1)`, consumed
sequentially exactly as the source consumes its global RNG seeded by
`np.random.seed(42)`; a draw at position `n` yields `a + (b - a) * u n`.
-/

set_option maxRecDepth 10000

namespace DbProject

/-- The rounding of Python builtin round() to an integer: round half to
even (bankers rounding), which is also the rounding used by
numpy/pandas round. -/
def roundHalfEven {K : Type} [LinearOrderedField K] [FloorRing K] (x : K) : ℤ :=
  if x - ⌊x⌋ < 1/2 then ⌊x⌋
  else if 1/2 < x - ⌊x⌋ then ⌊x⌋ + 1
  else if ⌊x⌋ % 2 = 0 then ⌊x⌋ else ⌊x⌋ + 1

/-- Python round(x, 2): round to two decimal places, half to even. -/
def round2 {K : Type} [LinearOrderedField K] [FloorRing K] (x : K) : K :=
  (roundHalfEven (100 * x) : K) / 100

/-- One draw of np.random.uniform(a, b) at position n of the stream u. -/
def uniform {K : Type} [LinearOrderedField K] (a b : K) (u : ℕ → K) (n : ℕ) : K :=
  a + (b - a) * u n

/-- The stream u is a valid sequence of np.random.uniform draws: every
value lies in [0, 1). -/
def Draws {K : Type} [LinearOrderedField K] (u : ℕ → K) : Prop :=
  ∀ n, 0 ≤ u n ∧ u n < 1

/-- One row of the performance CSV (data model of spec section 3): a
single benchmark observation, timing fields in milliseconds.  The
timing fields are `K` (`ℚ` for the generator and the CSV layer, `ℝ` for
the estimator); `rows_returned` is the result of Python int(). -/
structure Record (K : Type) where
  query_name : String
  database : String
  execution_time_ms : K
  query_time_ms : K
  return_time_ms : K
  rows_returned : ℤ
  query_type : String
deriving DecidableEq, Inhabited

/-- The (query_name, database, query_type) identity of a record. -/
def recordKey {K : Type} (r : Record K) : String × String × String :=
  (r.query_name, r.database, r.query_type)

/-- data_generator.py lines 16-18: the query-name batches. -/
def simpleQueries : List String := ["Q1", "Q2", "Q3", "Q4", "Q5", "Q6", "Q7", "Q8"]

def complexQueries : List String := ["Q1", "Q2", "Q3", "Q4", "Q5"]

def crudOperations : List String := ["I1", "D1", "U1"]

/-- data_generator.py lines 20-26 (the same list appears in
data_loader.py lines 121-127): the five database variants. -/
def databases : List String :=
  ["PostgreSQL", "PostgreSQL_indexed", "DuckDB", "DuckDB_indexed", "InfluxDB"]

/-- data_generator.py lines 35-44: base-latency range per database for
simple queries; the final else branch of the source is InfluxDB. -/
def simpleBaseRange (db : String) : ℚ × ℚ :=
  if db = "PostgreSQL" then (100, 500)
  else if db = "PostgreSQL_indexed" then (50, 200)
  else if db = "DuckDB" then (40, 150)
  else if db = "DuckDB_indexed" then (35, 140)
  else (150, 600)

/-- data_generator.py lines 66-75: base-latency range per database for
complex queries. -/
def complexBaseRange (db : String) : ℚ × ℚ :=
  if db = "PostgreSQL" then (500, 2000)
  else if db = "PostgreSQL_indexed" then (300, 1500)
  else if db = "DuckDB" then (200, 1000)
  else if db = "DuckDB_indexed" then (180, 950)
  else (800, 3000)

/-- data_generator.py lines 47-49 / 77-78 / 108-109: the query-time
fraction is drawn from a query-type-specific uniform range. -/
def genSplitRange (qtype : String) : ℚ × ℚ :=
  if qtype = "simple" then (0.6, 0.8)
  else if qtype = "complex" then (0.7, 0.85)
  else (0.85, 0.95)

/-- The jitter-and-split step of data_generator.py (lines 47-49 and the
identical lines of the complex and CRUD batches): multiply the base by
a uniform(0.9, 1.1) jitter, then split off a query time drawn as a
uniform query-type-specific fraction of the total; the return time is
the exact remainder.  Returns (total, query time, return time) and
consumes the draws at positions n and n + 1. -/
def genJitterSplit {K : Type} [LinearOrderedField K] (qtype : String) (base : K)
    (u : ℕ → K) (n : ℕ) : K × K × K :=
  let total := base * uniform 0.9 1.1 u n
  let qt := total * uniform ((genSplitRange qtype).1 : K) ((genSplitRange qtype).2 : K) u (n + 1)
  (total, qt, total - qt)

/-- The jitter-and-split step of data_loader.py lines 171-182: multiply
the base by a uniform(0.85, 1.15) jitter, then split with a fixed
query-time ratio: 0.9 for CRUD, otherwise 0.55 for InfluxDB (slower at
returning data) and 0.75 for every other database.  No draw is consumed
by the split.  Returns (total, query time, return time) and consumes
the single draw at position n. -/
def estJitterSplit {K : Type} [LinearOrderedField K] (qtype db : String) (base : K)
    (u : ℕ → K) (n : ℕ) : K × K × K :=
  let total := base * uniform 0.85 1.15 u n
  let qratio : K := if qtype = "crud" then 0.9 else if db = "InfluxDB" then 0.55 else 0.75
  let qt := total * qratio
  (total, qt, total - qt)

/-- data_generator.py lines 32-60, body of the simple-query loop for one
(query, db) pair, starting at stream position n; returns the record and
the next stream position (four draws: base, jitter, split, rows). -/
def simpleStep (query db : String) (u : ℕ → ℚ) (n : ℕ) : Record ℚ × ℕ :=
  let base := uniform (simpleBaseRange db).1 (simpleBaseRange db).2 u n
  let total := base * uniform 0.9 1.1 u (n + 1)
  let qt := total * uniform 0.6 0.8 u (n + 2)
  let rt := total - qt
  let rows := ⌊uniform 100 10000 u (n + 3)⌋
  (⟨query, db, round2 total, round2 qt, round2 rt, rows, "simple"⟩, n + 4)

/-- data_generator.py lines 64-90, body of the complex-query loop for
one (query, db) pair. -/
def complexStep (query db : String) (u : ℕ → ℚ) (n : ℕ) : Record ℚ × ℕ :=
  let base := uniform (complexBaseRange db).1 (complexBaseRange db).2 u n
  let total := base * uniform 0.9 1.1 u (n + 1)
  let qt := total * uniform 0.7 0.85 u (n + 2)
  let rt := total - qt
  let rows := ⌊uniform 1000 50000 u (n + 3)⌋
  (⟨query, db, round2 total, round2 qt, round2 rt, rows, "complex"⟩, n + 4)

/-- data_generator.py lines 94-121, body of the CRUD loop for one
(operation, db) pair.  The source first draws uniform(10,50) for names
starting with PostgreSQL and uniform(8,40) otherwise, then for InfluxDB
overwrites the base with a second draw uniform(15,60); so InfluxDB
consumes two base draws and the first is discarded.  db.startswith is
expanded over the fixed database list.  Rows: one draw uniform(1,100)
truncated to an integer for I1, the constant 1 otherwise (no draw). -/
def crudStep (op db : String) (u : ℕ → ℚ) (n : ℕ) : Record ℚ × ℕ :=
  let bn : ℚ × ℕ :=
    if db = "InfluxDB" then (uniform 15 60 u (n + 1), n + 2)
    else if db = "PostgreSQL" ∨ db = "PostgreSQL_indexed" then (uniform 10 50 u n, n + 1)
    else (uniform 8 40 u n, n + 1)
  let total := bn.1 * uniform 0.9 1.1 u bn.2
  let qt := total * uniform 0.85 0.95 u (bn.2 + 1)
  let rt := total - qt
  let rn : ℤ × ℕ :=
    if op = "I1" then (⌊uniform 1 100 u (bn.2 + 2)⌋, bn.2 + 3) else (1, bn.2 + 2)
  (⟨op, db, round2 total, round2 qt, round2 rt, rn.1, "crud"⟩, rn.2)

/-- data_generator.py line 97: InfluxDB does not support classical
DELETE/UPDATE, so (D1, InfluxDB) and (U1, InfluxDB) are skipped before
any draw. -/
def crudSkip (op db : String) : Bool :=
  db = "InfluxDB" && (op = "D1" || op = "U1")

/-- The trivial skip predicate of the simple and complex loops. -/
def noSkip (_ _ : String) : Bool := false

/-- Inner loop over the database list for a fixed query item a,
threading the stream position; mirrors the for-db loops of
data_generator.py and data_loader.py (with their continue-on-skip). -/
def runDbs {A R S : Type} (step : A → String → S → ℕ → R × ℕ)
    (skip : A → String → Bool) (a : A) (dbs : List String) (u : S) (n : ℕ) :
    List R × ℕ :=
  match dbs with
  | [] => ([], n)
  | db :: rest =>
    if skip a db then runDbs step skip a rest u n
    else
      let h := step a db u n
      let t := runDbs step skip a rest u h.2
      (h.1 :: t.1, t.2)

/-- Outer loop over the query items, threading the stream position. -/
def runPairs {A R S : Type} (step : A → String → S → ℕ → R × ℕ)
    (skip : A → String → Bool) (items : List A) (dbs : List String) (u : S) (n : ℕ) :
    List R × ℕ :=
  match items with
  | [] => ([], n)
  | a :: rest =>
    let h := runDbs step skip a dbs u n
    let t := runPairs step skip rest dbs u h.2
    (h.1 ++ t.1, t.2)

/-- data_generator.py generate_sample_data (lines 10-124): the full
record list in generation order (simple batch, then complex, then CRUD),
given the draw stream determined by np.random.seed(42); the stream is
consumed from position 0. -/
def generateSampleData (u : ℕ → ℚ) : List (Record ℚ) :=
  let s := runPairs simpleStep noSkip simpleQueries databases u 0
  let c := runPairs complexStep noSkip complexQueries databases u s.2
  let k := runPairs crudStep crudSkip crudOperations databases u c.2
  s.1 ++ c.1 ++ k.1

/-- The key set the spec promises for the generator: one (query,
database) pair per batch, minus the skipped InfluxDB D1/U1 CRUD
combinations (spec section 4.1, written from the spec wording). -/
def expectedKeys : List (String × String × String) :=
  (simpleQueries.flatMap fun q => databases.map fun db => (q, db, "simple")) ++
  (complexQueries.flatMap fun q => databases.map fun db => (q, db, "complex")) ++
  (crudOperations.flatMap fun op =>
    (databases.filter fun db => !(crudSkip op db)).map fun db => (op, db, "crud"))

/-- benchmark.py lines 173-175: arithmetic mean of the timed runs. -/
def benchAvg (xs : List ℚ) : ℚ := xs.sum / xs.length

/-- benchmark.py lines 172-185 (and identically lines 230-243): the
record appended by the benchmark runner from the measured total times
and return times; the average query time is the exact difference of the
two averages, and the three timing fields are rounded to two decimals
when stored. -/
def benchRecord (qn db qtype : String) (times retTimes : List ℚ) (rows : ℤ) : Record ℚ :=
  let avgT := benchAvg times
  let avgR := benchAvg retTimes
  let avgQ := avgT - avgR
  ⟨qn, db, round2 avgT, round2 avgQ, round2 avgR, rows, qtype⟩

/-- The derived return-time ratio recomputed by consumers
(visualize.py lines 186-188 and 327, app.py line 61 before rounding):
return_time_ms / execution_time_ms * 100.  A zero execution time makes
the Python float expression undefined (NaN or infinity), modelled as
none. -/
def returnRatio {K : Type} [LinearOrderedField K] (r : Record K) : Option K :=
  if r.execution_time_ms = 0 then none
  else some (r.return_time_ms / r.execution_time_ms * 100)

/-- app.py line 61: the dashboard loader additionally rounds the ratio
to two decimal places. -/
def returnRatioApp {K : Type} [LinearOrderedField K] [FloorRing K] (r : Record K) :
    Option K :=
  (returnRatio r).map round2

/- ——— Real-data estimator (data_loader.py) ——— -/

/-- data_loader.py lines 137-146: per-database coefficient of the
logarithmic scaling law for simple scenarios. -/
def simpleCoeff (db : String) : ℚ :=
  if db = "PostgreSQL" then 80
  else if db = "PostgreSQL_indexed" then 40
  else if db = "DuckDB" then 30
  else if db = "DuckDB_indexed" then 28
  else 100

/-- data_loader.py lines 149-158: per-database coefficient for complex
scenarios. -/
def complexCoeff (db : String) : ℚ :=
  if db = "PostgreSQL" then 200
  else if db = "PostgreSQL_indexed" then 150
  else if db = "DuckDB" then 100
  else if db = "DuckDB_indexed" then 95
  else 300

/-- The pre-jitter base time of a non-CRUD estimator scenario
(data_loader.py lines 136-158): np.log10(base_rows + 1) times the
per-database coefficient of the query type. -/
noncomputable def estBaseTime (qtype db : String) (rows : ℝ) : ℝ :=
  Real.logb 10 (rows + 1) *
    ((if qtype = "simple" then simpleCoeff db else complexCoeff db : ℚ) : ℝ)

/-- A generation-time scenario of data_loader.py lines 97-119: name,
query type and the base row count derived from the loaded tables (the
description string is omitted; it is never read). -/
structure Scenario where
  name : String
  qtype : String
  baseRows : ℝ

/-- data_loader.py lines 97-119: the sixteen test scenarios, with base
row counts scaled from the loaded order and order-item table sizes
(a table that failed to load contributes count 0, since
len(self.tables.get(..., [])) is 0). -/
noncomputable def testScenarios (orderCount orderItemsCount : ℕ) : List Scenario :=
  [⟨"Q1", "simple", (orderCount : ℝ) * 0.3⟩,
   ⟨"Q2", "simple", 27⟩,
   ⟨"Q3", "simple", (orderCount : ℝ) * 0.6⟩,
   ⟨"Q4", "simple", 3000⟩,
   ⟨"Q5", "simple", (orderCount : ℝ) * 0.1⟩,
   ⟨"Q6", "simple", 24⟩,
   ⟨"Q7", "simple", (orderCount : ℝ) * 0.05⟩,
   ⟨"Q8", "simple", 4000⟩,
   ⟨"Q1", "complex", (orderItemsCount : ℝ)⟩,
   ⟨"Q2", "complex", 3000⟩,
   ⟨"Q3", "complex", (orderCount : ℝ) * 0.8⟩,
   ⟨"Q4", "complex", 5000⟩,
   ⟨"Q5", "complex", (orderCount : ℝ)⟩,
   ⟨"I1", "crud", 1⟩,
   ⟨"D1", "crud", 1⟩,
   ⟨"U1", "crud", 1⟩]

/-- data_loader.py lines 161-162: inside the CRUD branch, InfluxDB with
D1/U1 is skipped (continue) before any draw. -/
def estSkip (sc : Scenario) (db : String) : Bool :=
  sc.qtype = "crud" && db = "InfluxDB" && (sc.name = "D1" || sc.name = "U1")

/-- data_loader.py lines 134-192, body of the per-database loop of
generate_performance_results for one (scenario, db): base time from the
logarithmic law for simple/complex (no draw) or from a uniform range for
CRUD (one draw, ranges 5-25 / 4-20 / 8-30 by db family), then the
uniform(0.85, 1.15) jitter and fixed-ratio split of lines 171-182, two
decimal rounding, and rows_returned = int(base_rows). -/
noncomputable def estStep (sc : Scenario) (db : String) (v : ℕ → ℝ) (n : ℕ) :
    Record ℝ × ℕ :=
  let bn : ℝ × ℕ :=
    if sc.qtype = "simple" then (estBaseTime "simple" db sc.baseRows, n)
    else if sc.qtype = "complex" then (estBaseTime "complex" db sc.baseRows, n)
    else if db = "PostgreSQL" ∨ db = "PostgreSQL_indexed" then (uniform 5 25 v n, n + 1)
    else if db = "DuckDB" ∨ db = "DuckDB_indexed" then (uniform 4 20 v n, n + 1)
    else (uniform 8 30 v n, n + 1)
  let ts := estJitterSplit sc.qtype db bn.1 v bn.2
  (⟨sc.name, db, round2 ts.1, round2 ts.2.1, round2 ts.2.2, ⌊sc.baseRows⌋, sc.qtype⟩,
    bn.2 + 1)

/-- data_loader.py generate_performance_results (lines 75-208): the
estimator record list, given the row counts of the loaded orders and
order-items tables and the draw stream seeded by np.random.seed(42). -/
noncomputable def estRecords (v : ℕ → ℝ) (orderCount orderItemsCount : ℕ) :
    List (Record ℝ) :=
  (runPairs estStep estSkip (testScenarios orderCount orderItemsCount) databases v 0).1

/- ——— Table loading (data_loader.py load_all_tables) ——— -/

/-- Outcome of one pd.read_csv attempt with a given encoding: success,
a UnicodeDecodeError, or any other exception (for example a parser
error on malformed content). -/
inductive ReadOutcome (T : Type) where
  | ok (t : T)
  | decodeErr
  | otherErr
deriving DecidableEq

/-- data_loader.py line 39: the ordered candidate encodings. -/
def encodings : List String := ["gbk", "utf-8", "gb18030", "latin1"]

/-- How one table load ends (data_loader.py lines 33-50): stored in
self.tables, skipped with a missing-file warning, skipped with an error
message from the outer except, or fallen through the encoding loop
silently because every encoding raised UnicodeDecodeError. -/
inductive LoadResult (T : Type) where
  | loaded (t : T)
  | skippedMissing
  | skippedError
  | skippedUndecodable
deriving DecidableEq

/-- data_loader.py lines 39-46, the inner encoding loop: try each
encoding in order; break on success, continue only on
UnicodeDecodeError; any other exception escapes the loop (to the outer
except of line 47), modelled as Except.error. -/
def tryEncodings {T : Type} (read : String → ReadOutcome T) :
    List String → Except Unit (Option T)
  | [] => .ok none
  | e :: rest =>
    match read e with
    | .ok t => .ok (some t)
    | .decodeErr => tryEncodings read rest
    | .otherErr => .error ()

/-- data_loader.py lines 36-50, one table: the missing-file check, the
encoding loop, and the outer try/except that turns any escaped
exception into a printed error and a skip.  Every path yields a
LoadResult; no exception propagates out. -/
def loadOneTable {T : Type} (fileExists : Bool) (read : String → ReadOutcome T) :
    LoadResult T :=
  if fileExists then
    match tryEncodings read encodings with
    | .ok (some t) => .loaded t
    | .ok none => .skippedUndecodable
    | .error () => .skippedError
  else .skippedMissing

/-- Modelled from the spec wording of claim C8: attempt the ordered
encodings, using the first that parses without error and trying the
next candidate after any parse failure. -/
def tryEncodingsSpec {T : Type} (read : String → ReadOutcome T) :
    List String → Option T
  | [] => none
  | e :: rest =>
    match read e with
    | .ok t => some t
    | _ => tryEncodingsSpec read rest

/- ——— CSV serialization (pandas to_csv / read_csv as used here) ——— -/

/-- The decimal digit character of d (for d < 10). -/
def digitChar (d : ℕ) : Char := Char.ofNat (48 + d)

/-- The value of a decimal digit character, if it is one. -/
def digitVal (c : Char) : Option ℕ :=
  if 48 ≤ c.toNat ∧ c.toNat ≤ 57 then some (c.toNat - 48) else none

/-- Decimal rendering of a natural number, most significant digit
first. -/
def natToChars (n : ℕ) : List Char :=
  if n = 0 then ['0'] else ((Nat.digits 10 n).map digitChar).reverse

/-- Parse a nonempty all-digit string back to a natural number. -/
def parseNatChars (cs : List Char) : Option ℕ :=
  if cs ≠ [] ∧ ∀ c ∈ cs, (digitVal c).isSome then
    some (Nat.ofDigits 10 ((cs.map fun c => c.toNat - 48).reverse))
  else none

/-- The fractional part of a two-decimal value of c cents (f = c % 100)
as Python float repr prints it: trailing zero trimmed but at least one
digit, a leading zero kept for single-digit cents. -/
def fracChars (f : ℕ) : List Char :=
  if f = 0 then ['0']
  else if f % 10 = 0 then [digitChar (f / 10)]
  else if f < 10 then ['0', digitChar f]
  else [digitChar (f / 10), digitChar (f % 10)]

/-- Rendering of the nonnegative two-decimal value c / 100 exactly as
repr of the Python float writes it into the CSV. -/
def formatCents (c : ℕ) : List Char :=
  natToChars (c / 100) ++ '.' :: fracChars (c % 100)

/-- Parse a one- or two-digit fractional part back to cents. -/
def parseFrac : List Char → Option ℕ
  | [c] => (digitVal c).map (· * 10)
  | [c, d] => (digitVal c).bind fun x => (digitVal d).map fun y => 10 * x + y
  | _ => none

/-- Parse a decimal cell back to cents (an integer-looking cell counts
as whole units). -/
def parseCents (cs : List Char) : Option ℕ :=
  match cs.dropWhile (fun c => c != '.') with
  | '.' :: fr =>
    (parseNatChars (cs.takeWhile (fun c => c != '.'))).bind fun i =>
      (parseFrac fr).map fun f => 100 * i + f
  | _ => (parseNatChars cs).map fun i => 100 * i

/-- The cents of a two-decimal nonnegative rational. -/
def cents (x : ℚ) : ℕ := (100 * x).num.toNat

/-- The seven cells of one CSV data row of a record, in the fixed
column order of the output format. -/
def recordCells (r : Record ℚ) : List (List Char) :=
  [r.query_name.data, r.database.data,
   formatCents (cents r.execution_time_ms),
   formatCents (cents r.query_time_ms),
   formatCents (cents r.return_time_ms),
   natToChars r.rows_returned.toNat,
   r.query_type.data]

/-- Rebuild a record from seven cells (pd.read_csv typing: the three
timing columns parse as floats, rows_returned as an integer). -/
def parseRecordCells (cells : List (List Char)) : Option (Record ℚ) :=
  match cells with
  | [qn, db, et, qt, rt, rr, qy] =>
    (parseCents et).bind fun e =>
    (parseCents qt).bind fun q =>
    (parseCents rt).bind fun r =>
    (parseNatChars rr).map fun (rows : ℕ) =>
      ⟨⟨qn⟩, ⟨db⟩, (e : ℚ) / 100, (q : ℚ) / 100, (r : ℚ) / 100, ((rows : ℕ) : ℤ), ⟨qy⟩⟩
  | _ => none

/-- Join cells with a separator character. -/
def joinWith (sep : Char) : List (List Char) → List Char
  | [] => []
  | [c] => c
  | c :: c2 :: cs => c ++ sep :: joinWith sep (c2 :: cs)

/-- Split a character list at every occurrence of the separator. -/
def splitOnSep (sep : Char) : List Char → List (List Char)
  | [] => [[]]
  | c :: rest =>
    match splitOnSep sep rest with
    | [] => [[]]
    | g :: gs => if c = sep then [] :: g :: gs else (c :: g) :: gs

/-- The fixed header line of the CSV output format. -/
def headerChars : List Char :=
  "query_name,database,execution_time_ms,query_time_ms,return_time_ms,rows_returned,query_type".data

/-- The UTF-8 byte-order mark written by encoding utf-8-sig. -/
def bom : Char := '\uFEFF'

/-- df.to_csv(..., index=False, encoding=utf-8-sig) on a record list:
BOM, header line, one line per record, every line newline-terminated
(joining with a newline against a final empty chunk yields the trailing
newline). -/
def writeCsv (rs : List (Record ℚ)) : List Char :=
  bom :: joinWith '\n' (headerChars :: (rs.map fun r => joinWith ',' (recordCells r)) ++ [[]])

/-- Parse the data rows, failing if any row fails. -/
def parseRows : List (List Char) → Option (List (Record ℚ))
  | [] => some []
  | l :: ls =>
    (parseRecordCells (splitOnSep ',' l)).bind fun r =>
      (parseRows ls).map fun rs => r :: rs

/-- pd.read_csv on such a file: strip a leading BOM if present, split
into lines ignoring a trailing empty line, check the header, parse the
rows. -/
def readCsv (cs : List Char) : Option (List (Record ℚ)) :=
  let body := match cs with
    | c :: rest => if c = bom then rest else cs
    | [] => []
  let ls := splitOnSep '\n' body
  let ls2 := if ls.getLast? = some [] then ls.dropLast else ls
  match ls2 with
  | h :: rows => if h = headerChars then parseRows rows else none
  | [] => none

/-- A record the CSV layer can represent verbatim: the string fields
are free of separators and the BOM, the timing fields carry exactly two
decimals (they are stored rounded), and the row count is nonnegative. -/
def Serializable (r : Record ℚ) : Prop :=
  (∀ c ∈ r.query_name.data, c ≠ ',' ∧ c ≠ '\n') ∧
  (∀ c ∈ r.database.data, c ≠ ',' ∧ c ≠ '\n') ∧
  (∀ c ∈ r.query_type.data, c ≠ ',' ∧ c ≠ '\n') ∧
  (∃ k : ℕ, r.execution_time_ms = (k : ℚ) / 100) ∧
  (∃ k : ℕ, r.query_time_ms = (k : ℚ) / 100) ∧
  (∃ k : ℕ, r.return_time_ms = (k : ℚ) / 100) ∧
  0 ≤ r.rows_returned

/-- The numeric sanity facts shared by every record the pipeline emits:
nonnegative timing fields, return time within the total, the rounded
sum identity within one cent, nonnegative row count. -/
def OkRec {K : Type} [LinearOrderedField K] (r : Record K) : Prop :=
  0 ≤ r.execution_time_ms ∧ 0 ≤ r.query_time_ms ∧ 0 ≤ r.return_time_ms ∧
  r.return_time_ms ≤ r.execution_time_ms ∧
  |r.query_time_ms + r.return_time_ms - r.execution_time_ms| ≤ 1/100 ∧
  0 ≤ r.rows_returned

/-- What additionally holds of every synthetic-generator record: the
stored execution time is strictly positive. -/
def GoodRec (r : Record ℚ) : Prop :=
  OkRec r ∧ 0 < r.execution_time_ms

/-- The one-cent agreement of the three rounded timing fields alone;
unlike OkRec it needs no assumption on the draw stream. -/
def CentOk {K : Type} [LinearOrderedField K] (r : Record K) : Prop :=
  |r.query_time_ms + r.return_time_ms - r.execution_time_ms| ≤ 1/100

/- ——— Rounding lemmas ——— -/

section Rounding

variable {K : Type} [LinearOrderedField K] [FloorRing K]

lemma floor_le_roundHalfEven (x : K) : ⌊x⌋ ≤ roundHalfEven x := by
  unfold roundHalfEven; split_ifs <;> omega

lemma roundHalfEven_le_floor_add_one (x : K) : roundHalfEven x ≤ ⌊x⌋ + 1 := by
  unfold roundHalfEven; split_ifs <;> omega

lemma abs_roundHalfEven_sub_le (x : K) : |(roundHalfEven x : K) - x| ≤ 1/2 := by
  have h0 : (⌊x⌋ : K) ≤ x := Int.floor_le x
  have h1 : x < ⌊x⌋ + 1 := Int.lt_floor_add_one x
  unfold roundHalfEven
  split_ifs with hf hg he <;>
    (rw [abs_le]; constructor <;> push_cast <;> linarith)

lemma roundHalfEven_mono {x y : K} (h : x ≤ y) : roundHalfEven x ≤ roundHalfEven y := by
  have hxy : ⌊x⌋ ≤ ⌊y⌋ := Int.floor_le_floor h
  rcases eq_or_lt_of_le hxy with heq | hlt
  · have hf : x - ⌊x⌋ ≤ y - ⌊y⌋ := by
      rw [← heq]; linarith
    unfold roundHalfEven
    rw [← heq]
    split_ifs <;> first | omega | linarith
  · have h1 := roundHalfEven_le_floor_add_one x
    have h2 := floor_le_roundHalfEven y
    omega

lemma roundHalfEven_nonneg {x : K} (h : 0 ≤ x) : 0 ≤ roundHalfEven x := by
  have := floor_le_roundHalfEven x
  have : (0 : ℤ) ≤ ⌊x⌋ := Int.floor_nonneg.2 h
  omega

lemma roundHalfEven_zero : roundHalfEven (0 : K) = 0 := by
  unfold roundHalfEven
  norm_num

lemma abs_round2_sub_le (x : K) : |round2 x - x| ≤ 1/200 := by
  have h := abs_le.1 (abs_roundHalfEven_sub_le (100 * x))
  have hq : round2 x - x = ((roundHalfEven (100 * x) : K) - 100 * x) / 100 := by
    unfold round2; ring
  rw [hq, abs_le]
  constructor <;> [linarith [h.1]; linarith [h.2]]

lemma round2_nonneg {x : K} (h : 0 ≤ x) : 0 ≤ round2 x := by
  unfold round2
  have h1 : (0 : ℤ) ≤ roundHalfEven (100 * x) := roundHalfEven_nonneg (by linarith)
  have h2 : (0 : K) ≤ (roundHalfEven (100 * x) : K) := by exact_mod_cast h1
  positivity

lemma round2_pos {x : K} (h : 1/200 < x) : 0 < round2 x := by
  have hb := (abs_le.1 (abs_round2_sub_le x)).1
  linarith

lemma round2_mono {x y : K} (h : x ≤ y) : round2 x ≤ round2 y := by
  unfold round2
  have h1 : roundHalfEven (100 * x) ≤ roundHalfEven (100 * y) :=
    roundHalfEven_mono (by linarith)
  have h2 : (roundHalfEven (100 * x) : K) ≤ (roundHalfEven (100 * y) : K) := by
    exact_mod_cast h1
  linarith

lemma round2_zero : round2 (0 : K) = 0 := by
  unfold round2
  rw [mul_zero, roundHalfEven_zero]
  norm_num

/-- The three rounded timing fields of one record can disagree by at
most one cent: the signed rounding errors sum to an integer number of
cents of absolute value at most 3/2, hence at most 1. -/
lemma round_sum_bound (q r : K) : |round2 q + round2 r - round2 (q + r)| ≤ 1/100 := by
  have ha := abs_le.1 (abs_roundHalfEven_sub_le (100 * q))
  have hb := abs_le.1 (abs_roundHalfEven_sub_le (100 * r))
  have hc := abs_le.1 (abs_roundHalfEven_sub_le (100 * (q + r)))
  set a := roundHalfEven (100 * q) with hadef
  set b := roundHalfEven (100 * r) with hbdef
  set c := roundHalfEven (100 * (q + r)) with hcdef
  have hsum : round2 q + round2 r - round2 (q + r) = ((a + b - c : ℤ) : K) / 100 := by
    unfold round2
    push_cast
    ring
  have habs : |((a + b - c : ℤ) : K)| ≤ 3/2 := by
    rw [abs_le]
    constructor <;> push_cast <;> linarith [ha.1, ha.2, hb.1, hb.2, hc.1, hc.2]
  have hint : |a + b - c| < 2 := by
    have h2 : ((|a + b - c| : ℤ) : K) ≤ 3/2 := by
      rw [Int.cast_abs]; exact habs
    have h3 : ((|a + b - c| : ℤ) : K) < 2 := h2.trans_lt (by norm_num)
    exact_mod_cast h3
  have h4 : |((a + b - c : ℤ) : K)| ≤ 1 := by
    rw [← Int.cast_abs]
    have : |a + b - c| ≤ 1 := by omega
    exact_mod_cast this
  have h5 := abs_le.1 h4
  rw [hsum, abs_le]
  constructor <;> linarith [h5.1, h5.2]

end Rounding

/- ——— Membership in the generation loops ——— -/

lemma mem_runDbs {A R S : Type} {step : A → String → S → ℕ → R × ℕ}
    {skip : A → String → Bool} {a : A} {u : S} (P : R → Prop) :
    ∀ (dbs : List String) (n : ℕ),
      (∀ db n', db ∈ dbs → P (step a db u n').1) →
      ∀ r ∈ (runDbs step skip a dbs u n).1, P r := by
  intro dbs
  induction dbs with
  | nil => intro n h r hr; simp [runDbs] at hr
  | cons db rest ih =>
    intro n h r hr
    simp only [runDbs] at hr
    by_cases hs : skip a db
    · rw [if_pos hs] at hr
      exact ih n (fun db' n' hd => h db' n' (List.mem_cons_of_mem _ hd)) r hr
    · rw [if_neg hs] at hr
      rcases List.mem_cons.1 hr with rfl | hr'
      · exact h db n (List.mem_cons_self _ _)
      · exact ih _ (fun db' n' hd => h db' n' (List.mem_cons_of_mem _ hd)) r hr'

lemma mem_runPairs {A R S : Type} {step : A → String → S → ℕ → R × ℕ}
    {skip : A → String → Bool} {dbs : List String} {u : S} (P : R → Prop) :
    ∀ (items : List A) (n : ℕ),
      (∀ a db n', a ∈ items → db ∈ dbs → P (step a db u n').1) →
      ∀ r ∈ (runPairs step skip items dbs u n).1, P r := by
  intro items
  induction items with
  | nil => intro n h r hr; simp [runPairs] at hr
  | cons a rest ih =>
    intro n h r hr
    simp only [runPairs] at hr
    rcases List.mem_append.1 hr with hr' | hr'
    · exact mem_runDbs P dbs n (fun db n' hd => h a db n' (List.mem_cons_self _ _) hd) r hr'
    · exact ih _ (fun a' db n' ha hd => h a' db n' (List.mem_cons_of_mem _ ha) hd) r hr'

/- ——— Per-record facts about the synthetic generator ——— -/

lemma uniform_bounds {K : Type} [LinearOrderedField K] {a b : K} {u : ℕ → K} {n : ℕ}
    (hab : a ≤ b) (hu : 0 ≤ u n ∧ u n < 1) :
    a ≤ uniform a b u n ∧ uniform a b u n ≤ b := by
  unfold uniform
  constructor
  · nlinarith [hu.1, hu.2]
  · nlinarith [hu.1, hu.2]

lemma simpleBaseRange_bounds (db : String) :
    8 ≤ (simpleBaseRange db).1 ∧ (simpleBaseRange db).1 ≤ (simpleBaseRange db).2 := by
  unfold simpleBaseRange; split_ifs <;> norm_num

lemma complexBaseRange_bounds (db : String) :
    8 ≤ (complexBaseRange db).1 ∧ (complexBaseRange db).1 ≤ (complexBaseRange db).2 := by
  unfold complexBaseRange; split_ifs <;> norm_num

/-- A record whose fields come out of the round-and-store lines of the
source (round2 of a total, a query part in [0, total], and their exact
difference) satisfies all the shared numeric facts. -/
lemma mkRec_ok {K : Type} [LinearOrderedField K] [FloorRing K]
    {total qt : K} {name db qtype : String} {rows : ℤ}
    (htot : 0 ≤ total) (hqt0 : 0 ≤ qt) (hqtle : qt ≤ total) (hrows : 0 ≤ rows) :
    OkRec (⟨name, db, round2 total, round2 qt, round2 (total - qt), rows, qtype⟩ :
      Record K) := by
  have hsum := round_sum_bound qt (total - qt)
  have hqr : qt + (total - qt) = total := by ring
  rw [hqr] at hsum
  exact ⟨round2_nonneg htot, round2_nonneg hqt0, round2_nonneg (by linarith),
    round2_mono (by linarith), hsum, hrows⟩

lemma simpleStep_good (q db : String) (u : ℕ → ℚ) (n : ℕ) (hu : Draws u) :
    GoodRec (simpleStep q db u n).1 := by
  obtain ⟨hlo, hle⟩ := simpleBaseRange_bounds db
  obtain ⟨hb1, hb2⟩ := uniform_bounds hle (hu n)
  obtain ⟨hj1, hj2⟩ := uniform_bounds (by norm_num : (0.9 : ℚ) ≤ 1.1) (hu (n + 1))
  obtain ⟨hs1, hs2⟩ := uniform_bounds (by norm_num : (0.6 : ℚ) ≤ 0.8) (hu (n + 2))
  obtain ⟨hr1, hr2⟩ := uniform_bounds (by norm_num : (100 : ℚ) ≤ 10000) (hu (n + 3))
  have htot : (36/5 : ℚ) ≤ uniform (simpleBaseRange db).1 (simpleBaseRange db).2 u n *
      uniform 0.9 1.1 u (n + 1) := by nlinarith
  refine ⟨mkRec_ok (by linarith) ?_ ?_ (Int.floor_nonneg.2 (by linarith)), ?_⟩
  · nlinarith
  · nlinarith
  · exact round2_pos (by linarith)

lemma complexStep_good (q db : String) (u : ℕ → ℚ) (n : ℕ) (hu : Draws u) :
    GoodRec (complexStep q db u n).1 := by
  obtain ⟨hlo, hle⟩ := complexBaseRange_bounds db
  obtain ⟨hb1, hb2⟩ := uniform_bounds hle (hu n)
  obtain ⟨hj1, hj2⟩ := uniform_bounds (by norm_num : (0.9 : ℚ) ≤ 1.1) (hu (n + 1))
  obtain ⟨hs1, hs2⟩ := uniform_bounds (by norm_num : (0.7 : ℚ) ≤ 0.85) (hu (n + 2))
  obtain ⟨hr1, hr2⟩ := uniform_bounds (by norm_num : (1000 : ℚ) ≤ 50000) (hu (n + 3))
  have htot : (36/5 : ℚ) ≤ uniform (complexBaseRange db).1 (complexBaseRange db).2 u n *
      uniform 0.9 1.1 u (n + 1) := by nlinarith
  refine ⟨mkRec_ok (by linarith) ?_ ?_ (Int.floor_nonneg.2 (by linarith)), ?_⟩
  · nlinarith
  · nlinarith
  · exact round2_pos (by linarith)

lemma crudStep_good (op db : String) (u : ℕ → ℚ) (n : ℕ) (hu : Draws u) :
    GoodRec (crudStep op db u n).1 := by
  have key : ∀ (lo hi : ℚ) (m : ℕ), 8 ≤ lo → lo ≤ hi →
      GoodRec (⟨op, db, round2 (uniform lo hi u m * uniform 0.9 1.1 u (m + 1)),
        round2 (uniform lo hi u m * uniform 0.9 1.1 u (m + 1) *
          uniform 0.85 0.95 u (m + 1 + 1)),
        round2 (uniform lo hi u m * uniform 0.9 1.1 u (m + 1) -
          uniform lo hi u m * uniform 0.9 1.1 u (m + 1) *
            uniform 0.85 0.95 u (m + 1 + 1)),
        (if op = "I1" then (⌊uniform 1 100 u (m + 1 + 2)⌋, m + 1 + 3)
          else ((1 : ℤ), m + 1 + 2)).1, "crud"⟩ : Record ℚ) := by
    intro lo hi m hlo hle
    obtain ⟨hb1, hb2⟩ := uniform_bounds hle (hu m)
    obtain ⟨hj1, hj2⟩ := uniform_bounds (by norm_num : (0.9 : ℚ) ≤ 1.1) (hu (m + 1))
    obtain ⟨hs1, hs2⟩ := uniform_bounds (by norm_num : (0.85 : ℚ) ≤ 0.95) (hu (m + 1 + 1))
    have htot : (36/5 : ℚ) ≤ uniform lo hi u m * uniform 0.9 1.1 u (m + 1) := by nlinarith
    refine ⟨mkRec_ok (by linarith) ?_ ?_ ?_, ?_⟩
    · nlinarith
    · nlinarith
    · split_ifs with hI
      · exact Int.floor_nonneg.2 (by linarith [(uniform_bounds
          (by norm_num : (1 : ℚ) ≤ 100) (hu (m + 1 + 2))).1])
      · norm_num
    · exact round2_pos (by linarith)
  by_cases h1 : db = "InfluxDB"
  · simp only [crudStep, if_pos h1]
    exact key 15 60 (n + 1) (by norm_num) (by norm_num)
  · by_cases h2 : db = "PostgreSQL" ∨ db = "PostgreSQL_indexed"
    · simp only [crudStep, if_neg h1, if_pos h2]
      exact key 10 50 n (by norm_num) (by norm_num)
    · simp only [crudStep, if_neg h1, if_neg h2]
      exact key 8 40 n (by norm_num) (by norm_num)

/-- Every record of the synthetic generator carries positive execution
time, nonnegative query/return times and rows, return time within the
total, and the one-cent rounding identity, for every valid draw
stream. -/
lemma generateSampleData_good (u : ℕ → ℚ) (hu : Draws u) :
    ∀ r ∈ generateSampleData u, GoodRec r := by
  intro r hr
  unfold generateSampleData at hr
  simp only [List.mem_append] at hr
  rcases hr with (hr | hr) | hr
  · exact mem_runPairs GoodRec _ _ (fun a db n _ _ => simpleStep_good a db u n hu) r hr
  · exact mem_runPairs GoodRec _ _ (fun a db n _ _ => complexStep_good a db u n hu) r hr
  · exact mem_runPairs GoodRec _ _ (fun a db n _ _ => crudStep_good a db u n hu) r hr

/- ——— Per-record facts about the real-data estimator ——— -/

lemma simpleCoeff_nonneg (db : String) : 0 ≤ simpleCoeff db := by
  unfold simpleCoeff; split_ifs <;> norm_num

lemma complexCoeff_nonneg (db : String) : 0 ≤ complexCoeff db := by
  unfold complexCoeff; split_ifs <;> norm_num

lemma estBaseTime_nonneg (qtype db : String) {rows : ℝ} (h : 0 ≤ rows) :
    0 ≤ estBaseTime qtype db rows := by
  unfold estBaseTime
  apply mul_nonneg
  · exact Real.logb_nonneg (by norm_num) (by linarith)
  · split_ifs
    · exact_mod_cast simpleCoeff_nonneg db
    · exact_mod_cast complexCoeff_nonneg db

lemma estRatio_bounds (qtype db : String) :
    0 ≤ (if qtype = "crud" then (0.9 : ℝ) else if db = "InfluxDB" then 0.55 else 0.75) ∧
    (if qtype = "crud" then (0.9 : ℝ) else if db = "InfluxDB" then 0.55 else 0.75) ≤ 1 := by
  split_ifs <;> norm_num

lemma estRecShape_ok {base qr br : ℝ} {v : ℕ → ℝ} {m : ℕ} (name db qtype : String)
    (hv : Draws v) (hb : 0 ≤ base) (h0 : 0 ≤ qr) (h1 : qr ≤ 1) (hbr : 0 ≤ br) :
    OkRec (⟨name, db, round2 (base * uniform 0.85 1.15 v m),
      round2 (base * uniform 0.85 1.15 v m * qr),
      round2 (base * uniform 0.85 1.15 v m - base * uniform 0.85 1.15 v m * qr),
      ⌊br⌋, qtype⟩ : Record ℝ) := by
  obtain ⟨hj1, hj2⟩ := uniform_bounds (by norm_num : (0.85 : ℝ) ≤ 1.15) (hv m)
  have htot : 0 ≤ base * uniform 0.85 1.15 v m := mul_nonneg hb (by linarith)
  exact mkRec_ok htot (mul_nonneg htot h0) (by nlinarith) (Int.floor_nonneg.2 hbr)

lemma estStep_ok (sc : Scenario) (db : String) (v : ℕ → ℝ) (n : ℕ)
    (hv : Draws v) (h : 0 ≤ sc.baseRows) : OkRec (estStep sc db v n).1 := by
  obtain ⟨hr0, hr1⟩ := estRatio_bounds sc.qtype db
  by_cases hq1 : sc.qtype = "simple"
  · simp only [estStep, if_pos hq1, estJitterSplit]
    exact estRecShape_ok _ _ _ hv (estBaseTime_nonneg _ _ h) hr0 hr1 h
  · by_cases hq2 : sc.qtype = "complex"
    · simp only [estStep, if_neg hq1, if_pos hq2, estJitterSplit]
      exact estRecShape_ok _ _ _ hv (estBaseTime_nonneg _ _ h) hr0 hr1 h
    · by_cases hd1 : db = "PostgreSQL" ∨ db = "PostgreSQL_indexed"
      · simp only [estStep, if_neg hq1, if_neg hq2, if_pos hd1, estJitterSplit]
        refine estRecShape_ok _ _ _ hv ?_ hr0 hr1 h
        linarith [(uniform_bounds (by norm_num : (5 : ℝ) ≤ 25) (hv n)).1]
      · by_cases hd2 : db = "DuckDB" ∨ db = "DuckDB_indexed"
        · simp only [estStep, if_neg hq1, if_neg hq2, if_neg hd1, if_pos hd2,
            estJitterSplit]
          refine estRecShape_ok _ _ _ hv ?_ hr0 hr1 h
          linarith [(uniform_bounds (by norm_num : (4 : ℝ) ≤ 20) (hv n)).1]
        · simp only [estStep, if_neg hq1, if_neg hq2, if_neg hd1, if_neg hd2,
            estJitterSplit]
          refine estRecShape_ok _ _ _ hv ?_ hr0 hr1 h
          linarith [(uniform_bounds (by norm_num : (8 : ℝ) ≤ 30) (hv n)).1]

lemma testScenarios_baseRows_nonneg (oc oic : ℕ) :
    ∀ sc ∈ testScenarios oc oic, 0 ≤ sc.baseRows := by
  intro sc hsc
  simp only [testScenarios, List.mem_cons, List.not_mem_nil, or_false] at hsc
  rcases hsc with rfl | rfl | rfl | rfl | rfl | rfl | rfl | rfl | rfl | rfl | rfl | rfl |
    rfl | rfl | rfl | rfl <;> simp <;> positivity

/-- Every record of the real-data estimator has nonnegative timing
fields and rows, return time within the total, and the one-cent
rounding identity, for every valid draw stream and any loaded row
counts. -/
lemma estRecords_ok (v : ℕ → ℝ) (hv : Draws v) (oc oic : ℕ) :
    ∀ r ∈ estRecords v oc oic, OkRec r := by
  intro r hr
  unfold estRecords at hr
  exact mem_runPairs OkRec _ _
    (fun sc db n hsc _ =>
      estStep_ok sc db v n hv (testScenarios_baseRows_nonneg oc oic sc hsc)) r hr

/- ——— CSV round-trip lemmas ——— -/

lemma digitChar_toNat {d : ℕ} (hd : d < 10) : (digitChar d).toNat = 48 + d := by
  interval_cases d <;> decide

lemma digitVal_digitChar {d : ℕ} (hd : d < 10) : digitVal (digitChar d) = some d := by
  simp only [digitVal, digitChar_toNat hd]
  rw [if_pos (by omega)]
  congr 1
  omega

lemma mem_natToChars_bounds {n : ℕ} {c : Char} (h : c ∈ natToChars n) :
    48 ≤ c.toNat ∧ c.toNat ≤ 57 := by
  unfold natToChars at h
  split_ifs at h with h0
  · simp only [List.mem_singleton] at h
    subst h; decide
  · rw [List.mem_reverse, List.mem_map] at h
    obtain ⟨d, hd, rfl⟩ := h
    have hlt : d < 10 := Nat.digits_lt_base (by norm_num) hd
    rw [digitChar_toNat hlt]
    omega

lemma parseNatChars_natToChars (n : ℕ) : parseNatChars (natToChars n) = some n := by
  by_cases h0 : n = 0
  · subst h0; decide
  · have hds : Nat.digits 10 n ≠ [] := Nat.digits_ne_nil_iff_ne_zero.2 h0
    have hne : natToChars n ≠ [] := by
      unfold natToChars
      rw [if_neg h0]
      simpa using hds
    have hdig : ∀ c ∈ natToChars n, (digitVal c).isSome := by
      intro c hc
      obtain ⟨hc1, hc2⟩ := mem_natToChars_bounds hc
      simp only [digitVal]
      rw [if_pos ⟨hc1, hc2⟩]
      rfl
    unfold parseNatChars
    rw [if_pos ⟨hne, hdig⟩]
    congr 1
    unfold natToChars
    rw [if_neg h0, List.map_reverse, List.reverse_reverse, List.map_map]
    have hmap : (Nat.digits 10 n).map ((fun c => c.toNat - 48) ∘ digitChar) =
        Nat.digits 10 n := by
      conv_rhs => rw [← List.map_id (Nat.digits 10 n)]
      apply List.map_congr_left
      intro d hd
      have hlt : d < 10 := Nat.digits_lt_base (by norm_num) hd
      simp only [Function.comp_apply, digitChar_toNat hlt, id]
      omega
    rw [hmap, Nat.ofDigits_digits]

lemma parseFrac_fracChars {f : ℕ} (hf : f < 100) : parseFrac (fracChars f) = some f := by
  have hdiv : f / 10 < 10 := Nat.div_lt_of_lt_mul (by omega)
  unfold fracChars
  split_ifs with h0 h10 hlt
  · subst h0; decide
  · simp only [parseFrac, digitVal_digitChar hdiv, Option.map_some']
    congr 1
    omega
  · simp only [parseFrac]
    rw [show digitVal '0' = some 0 from by decide]
    simp only [Option.some_bind, digitVal_digitChar hlt, Option.map_some']
    congr 1
    omega
  · simp only [parseFrac, digitVal_digitChar hdiv,
      digitVal_digitChar (Nat.mod_lt f (by omega) : f % 10 < 10), Option.some_bind,
      Option.map_some']
    congr 1
    omega

lemma takeWhile_middle {α : Type} (p : α → Bool) (l1 : List α) (b : α) (l2 : List α)
    (h1 : ∀ a ∈ l1, p a = true) (hb : p b = false) :
    (l1 ++ b :: l2).takeWhile p = l1 ∧ (l1 ++ b :: l2).dropWhile p = b :: l2 := by
  induction l1 with
  | nil => simp [List.takeWhile, List.dropWhile, hb]
  | cons c rest ih =>
    have hc : p c = true := h1 c (List.mem_cons_self _ _)
    have hrest := ih fun a ha => h1 a (List.mem_cons_of_mem _ ha)
    simp only [List.cons_append, List.takeWhile, List.dropWhile, hc, List.append_eq]
    exact ⟨by rw [hrest.1], by rw [hrest.2]⟩

lemma mem_fracChars_bounds {f : ℕ} (hf : f < 100) {c : Char} (h : c ∈ fracChars f) :
    48 ≤ c.toNat ∧ c.toNat ≤ 57 := by
  have hdiv : f / 10 < 10 := Nat.div_lt_of_lt_mul (by omega)
  have hmod : f % 10 < 10 := Nat.mod_lt f (by omega)
  unfold fracChars at h
  split_ifs at h with h0 h10 hlt <;>
    simp only [List.mem_singleton, List.mem_cons, List.not_mem_nil, or_false] at h
  · subst h; decide
  · subst h; rw [digitChar_toNat hdiv]; omega
  · rcases h with rfl | rfl
    · decide
    · rw [digitChar_toNat (by omega : f < 10)]; omega
  · rcases h with rfl | rfl
    · rw [digitChar_toNat hdiv]; omega
    · rw [digitChar_toNat hmod]; omega

lemma mem_formatCents_bounds {k : ℕ} {c : Char} (h : c ∈ formatCents k) :
    46 ≤ c.toNat ∧ c.toNat ≤ 57 := by
  unfold formatCents at h
  rw [List.mem_append, List.mem_cons] at h
  rcases h with h | h | h
  · have := mem_natToChars_bounds h; omega
  · subst h; decide
  · have := mem_fracChars_bounds (Nat.mod_lt k (by omega)) h; omega

lemma parseCents_formatCents (k : ℕ) : parseCents (formatCents k) = some k := by
  have hdot : ∀ a ∈ natToChars (k / 100), (a != '.') = true := by
    intro a ha
    have := mem_natToChars_bounds ha
    rw [bne_iff_ne]
    intro heq
    rw [heq] at this
    revert this; decide
  have hmid := takeWhile_middle (fun c => c != '.') (natToChars (k / 100)) '.'
    (fracChars (k % 100)) hdot (by decide)
  unfold parseCents formatCents
  rw [hmid.1, hmid.2]
  simp only [parseNatChars_natToChars,
    parseFrac_fracChars (Nat.mod_lt k (by omega) : k % 100 < 100), Option.some_bind,
    Option.map_some']
  congr 1
  omega

lemma splitOnSep_ne_nil (sep : Char) (l : List Char) : splitOnSep sep l ≠ [] := by
  induction l with
  | nil => simp [splitOnSep]
  | cons c rest ih =>
    simp only [splitOnSep]
    cases hsp : splitOnSep sep rest with
    | nil => exact absurd hsp ih
    | cons g gs => split_ifs <;> simp

lemma splitOnSep_sepFree {sep : Char} {l : List Char} (h : ∀ a ∈ l, a ≠ sep) :
    splitOnSep sep l = [l] := by
  induction l with
  | nil => simp [splitOnSep]
  | cons c rest ih =>
    have hrest := ih fun a ha => h a (List.mem_cons_of_mem _ ha)
    simp only [splitOnSep, hrest]
    rw [if_neg (h c (List.mem_cons_self _ _))]

lemma splitOnSep_append_sep {sep : Char} {cell : List Char} (rest : List Char)
    (hcell : ∀ a ∈ cell, a ≠ sep) :
    splitOnSep sep (cell ++ sep :: rest) = cell :: splitOnSep sep rest := by
  induction cell with
  | nil =>
    simp only [List.nil_append, splitOnSep]
    cases hsp : splitOnSep sep rest with
    | nil => exact absurd hsp (splitOnSep_ne_nil sep rest)
    | cons g gs => simp
  | cons c cl ih =>
    have hc : c ≠ sep := hcell c (List.mem_cons_self _ _)
    have hcl := ih fun a ha => hcell a (List.mem_cons_of_mem _ ha)
    simp only [List.cons_append, List.append_eq, splitOnSep, hcl]
    rw [if_neg hc]

lemma splitOnSep_joinWith {sep : Char} :
    ∀ cells : List (List Char), cells ≠ [] →
      (∀ cl ∈ cells, ∀ a ∈ cl, a ≠ sep) →
      splitOnSep sep (joinWith sep cells) = cells
  | [], h, _ => absurd rfl h
  | [c], _, h => by
    simp only [joinWith]
    exact splitOnSep_sepFree (h c (List.mem_cons_self _ _))
  | c :: c2 :: cs, _, h => by
    have h1 := splitOnSep_joinWith (c2 :: cs) (by simp)
      fun cl hcl => h cl (List.mem_cons_of_mem _ hcl)
    simp only [joinWith]
    rw [splitOnSep_append_sep _ (h c (List.mem_cons_self _ _)), h1]

lemma mem_joinWith {sep : Char} {a : Char} :
    ∀ {cells : List (List Char)}, a ∈ joinWith sep cells →
      a = sep ∨ ∃ cl ∈ cells, a ∈ cl
  | [], h => by simp [joinWith] at h
  | [c], h => by
    simp only [joinWith] at h
    exact Or.inr ⟨c, List.mem_cons_self _ _, h⟩
  | c :: c2 :: cs, h => by
    rw [joinWith, List.mem_append, List.mem_cons] at h
    rcases h with h | h | h
    · exact Or.inr ⟨c, List.mem_cons_self _ _, h⟩
    · exact Or.inl h
    · rcases mem_joinWith h with h' | ⟨cl, hcl, ha⟩
      · exact Or.inl h'
      · exact Or.inr ⟨cl, List.mem_cons_of_mem _ hcl, ha⟩

lemma cents_div (k : ℕ) : cents ((k : ℚ) / 100) = k := by
  unfold cents
  rw [mul_div_cancel₀ _ (by norm_num : (100 : ℚ) ≠ 0)]
  simp

/-- The numeric cells never contain a separator: their characters are
digits or the decimal point. -/
lemma formatCents_sepFree {k : ℕ} {c : Char} (h : c ∈ formatCents k) :
    c ≠ ',' ∧ c ≠ '\n' := by
  have hb := mem_formatCents_bounds h
  constructor <;> rintro rfl <;> revert hb <;> decide

lemma natToChars_sepFree {n : ℕ} {c : Char} (h : c ∈ natToChars n) :
    c ≠ ',' ∧ c ≠ '\n' := by
  have hb := mem_natToChars_bounds h
  constructor <;> rintro rfl <;> revert hb <;> decide

lemma recordCells_sepFree {r : Record ℚ} (h : Serializable r) :
    ∀ cl ∈ recordCells r, ∀ a ∈ cl, a ≠ ',' ∧ a ≠ '\n' := by
  obtain ⟨h1, h2, h3, _, _, _, _⟩ := h
  intro cl hcl a ha
  simp only [recordCells, List.mem_cons, List.not_mem_nil, or_false] at hcl
  rcases hcl with rfl | rfl | rfl | rfl | rfl | rfl | rfl
  · exact h1 a ha
  · exact h2 a ha
  · exact formatCents_sepFree ha
  · exact formatCents_sepFree ha
  · exact formatCents_sepFree ha
  · exact natToChars_sepFree ha
  · exact h3 a ha

lemma parseRecordCells_recordCells {r : Record ℚ} (h : Serializable r) :
    parseRecordCells (recordCells r) = some r := by
  obtain ⟨qn, db, et, qt, rt, rr, qy⟩ := r
  obtain ⟨_, _, _, ⟨ke, hke⟩, ⟨kq, hkq⟩, ⟨kr, hkr⟩, hrows⟩ := h
  simp only at hke hkq hkr hrows
  subst hke hkq hkr
  obtain ⟨lqn⟩ := qn
  obtain ⟨ldb⟩ := db
  obtain ⟨lqy⟩ := qy
  simp only [recordCells, parseRecordCells, cents_div, parseCents_formatCents,
    parseNatChars_natToChars, Option.some_bind, Option.map_some',
    Option.some.injEq, Record.mk.injEq, and_true, true_and]
  omega

lemma parseRows_map {rs : List (Record ℚ)} (h : ∀ r ∈ rs, Serializable r) :
    parseRows (rs.map fun r => joinWith ',' (recordCells r)) = some rs := by
  induction rs with
  | nil => simp [parseRows]
  | cons r rest ih =>
    have hr := h r (List.mem_cons_self _ _)
    have hrest := ih fun r' hr' => h r' (List.mem_cons_of_mem _ hr')
    have hsplit : splitOnSep ',' (joinWith ',' (recordCells r)) = recordCells r :=
      splitOnSep_joinWith _ (by simp [recordCells])
        fun cl hcl a ha => (recordCells_sepFree hr cl hcl a ha).1
    simp only [List.map_cons, parseRows, hsplit, parseRecordCells_recordCells hr,
      hrest, Option.some_bind, Option.map_some']

lemma headerChars_newlineFree : ∀ a ∈ headerChars, a ≠ '\n' := by decide

/-- Write-then-read identity of the CSV layer for serializable record
lists. -/
lemma readCsv_writeCsv {rs : List (Record ℚ)} (h : ∀ r ∈ rs, Serializable r) :
    readCsv (writeCsv rs) = some rs := by
  have hlines : ∀ cl ∈ headerChars :: (rs.map fun r => joinWith ',' (recordCells r))
      ++ [([] : List Char)], ∀ a ∈ cl, a ≠ '\n' := by
    intro cl hcl a ha
    rcases List.mem_cons.1 hcl with rfl | hcl'
    · exact headerChars_newlineFree a ha
    · rcases List.mem_append.1 hcl' with hcl'' | hcl''
      · rw [List.mem_map] at hcl''
        obtain ⟨r, hr, rfl⟩ := hcl''
        rcases mem_joinWith ha with rfl | ⟨cell, hcell, ha'⟩
        · decide
        · exact (recordCells_sepFree (h r hr) cell hcell a ha').2
      · simp only [List.mem_singleton] at hcl''
        subst hcl''
        simp at ha
  have hsplit : splitOnSep '\n'
      (joinWith '\n' (headerChars :: (rs.map fun r => joinWith ',' (recordCells r))
        ++ [([] : List Char)])) =
      headerChars :: (rs.map fun r => joinWith ',' (recordCells r)) ++ [[]] :=
    splitOnSep_joinWith _ (by simp) hlines
  simp only [writeCsv, readCsv, if_true]
  rw [hsplit]
  rw [show headerChars :: (rs.map fun r => joinWith ',' (recordCells r)) ++
      [([] : List Char)] =
      (headerChars :: rs.map fun r => joinWith ',' (recordCells r)) ++ [[]] from rfl,
    List.getLast?_concat]
  rw [if_pos rfl, List.dropLast_concat]
  simp only [reduceIte]
  exact parseRows_map h

/- ——— Derived return-ratio bounds ——— -/

lemma round2_hundred {K : Type} [LinearOrderedField K] [FloorRing K] :
    round2 (100 : K) = 100 := by
  unfold round2 roundHalfEven
  rw [show (100 : K) * 100 = ((10000 : ℤ) : K) by norm_num, Int.floor_intCast]
  norm_num

/-- Every record with the shared numeric facts and positive execution
time has a defined return-time ratio in [0, 100], both raw
(visualize.py) and rounded (app.py). -/
lemma returnRatio_of_ok {K : Type} [LinearOrderedField K] [FloorRing K]
    {r : Record K} (hok : OkRec r) (hpos : 0 < r.execution_time_ms) :
    ∃ q, returnRatio r = some q ∧ 0 ≤ q ∧ q ≤ 100 ∧
      returnRatioApp r = some (round2 q) ∧ 0 ≤ round2 q ∧ round2 q ≤ 100 := by
  obtain ⟨-, -, hrt0, hrtle, -, -⟩ := hok
  have hne : r.execution_time_ms ≠ 0 := ne_of_gt hpos
  refine ⟨r.return_time_ms / r.execution_time_ms * 100, ?_, ?_, ?_, ?_, ?_, ?_⟩
  · unfold returnRatio
    rw [if_neg hne]
  · have := div_nonneg hrt0 (le_of_lt hpos)
    linarith
  · have hdiv : r.return_time_ms / r.execution_time_ms ≤ 1 := (div_le_one hpos).2 hrtle
    linarith
  · unfold returnRatioApp returnRatio
    rw [if_neg hne, Option.map_some']
  · apply round2_nonneg
    have := div_nonneg hrt0 (le_of_lt hpos)
    linarith
  · have hdiv : r.return_time_ms / r.execution_time_ms ≤ 1 := (div_le_one hpos).2 hrtle
    have hle : r.return_time_ms / r.execution_time_ms * 100 ≤ 100 := by linarith
    calc round2 (r.return_time_ms / r.execution_time_ms * 100) ≤ round2 (100 : K) :=
        round2_mono hle
      _ = 100 := round2_hundred

/- ——— The one-cent identity holds with no assumption on the draws ——— -/

lemma split_cent_bound {K : Type} [LinearOrderedField K] [FloorRing K] (total qt : K) :
    |round2 qt + round2 (total - qt) - round2 total| ≤ 1/100 := by
  have h := round_sum_bound qt (total - qt)
  rwa [show qt + (total - qt) = total from by ring] at h

lemma simpleStep_cent (q db : String) (u : ℕ → ℚ) (n : ℕ) :
    CentOk (simpleStep q db u n).1 :=
  split_cent_bound _ _

lemma complexStep_cent (q db : String) (u : ℕ → ℚ) (n : ℕ) :
    CentOk (complexStep q db u n).1 :=
  split_cent_bound _ _

lemma crudStep_cent (op db : String) (u : ℕ → ℚ) (n : ℕ) :
    CentOk (crudStep op db u n).1 :=
  split_cent_bound _ _

lemma estStep_cent (sc : Scenario) (db : String) (v : ℕ → ℝ) (n : ℕ) :
    CentOk (estStep sc db v n).1 :=
  split_cent_bound _ _

/- ——— Numeric bounds for the log10 scaling example ——— -/

lemma pow_10001_lt : (10001 : ℕ) ^ 200 < 10 ^ 801 := by norm_num

lemma logb_10001_gt : (4 : ℝ) < Real.logb 10 10001 := by
  rw [Real.lt_logb_iff_rpow_lt (by norm_num) (by norm_num)]
  rw [show (4 : ℝ) = ((4 : ℕ) : ℝ) by norm_num, Real.rpow_natCast]
  norm_num

lemma logb_10001_lt : Real.logb 10 10001 < 801/200 := by
  rw [Real.logb_lt_iff_lt_rpow (by norm_num) (by norm_num)]
  have key : (10001 : ℝ) ^ (200 : ℕ) < ((10 : ℝ) ^ ((801 : ℝ)/200)) ^ (200 : ℕ) := by
    have h2 : ((10 : ℝ) ^ ((801 : ℝ)/200)) ^ (200 : ℕ) = (10 : ℝ) ^ (801 : ℕ) := by
      rw [← Real.rpow_natCast ((10 : ℝ) ^ ((801 : ℝ)/200)) 200,
        ← Real.rpow_mul (by norm_num)]
      rw [show (801 : ℝ)/200 * (200 : ℕ) = ((801 : ℕ) : ℝ) by norm_num,
        Real.rpow_natCast]
    rw [h2]
    exact_mod_cast pow_10001_lt
  exact lt_of_pow_lt_pow_left₀ 200 (Real.rpow_nonneg (by norm_num) _) key

/- ——— Table-loading behavior ——— -/

lemma tryEncodings_eq_spec {T : Type} (read : String → ReadOutcome T)
    (h : ∀ e, read e ≠ ReadOutcome.otherErr) :
    ∀ es, tryEncodings read es = Except.ok (tryEncodingsSpec read es) := by
  intro es
  induction es with
  | nil => rfl
  | cons e rest ih =>
    simp only [tryEncodings, tryEncodingsSpec]
    cases hre : read e with
    | ok t => rfl
    | decodeErr => exact ih
    | otherErr => exact absurd hre (h e)

lemma loadOneTable_missing {T : Type} (read : String → ReadOutcome T) :
    loadOneTable false read = LoadResult.skippedMissing := rfl

lemma loadOneTable_of_no_otherErr {T : Type} (read : String → ReadOutcome T)
    (h : ∀ e, read e ≠ ReadOutcome.otherErr) :
    loadOneTable true read = (match tryEncodingsSpec read encodings with
      | some t => LoadResult.loaded t
      | none => LoadResult.skippedUndecodable) := by
  unfold loadOneTable
  rw [if_pos rfl, tryEncodings_eq_spec read h]
  cases tryEncodingsSpec read encodings <;> rfl

lemma loadOneTable_of_error {T : Type} (read : String → ReadOutcome T)
    (h : tryEncodings read encodings = Except.error ()) :
    loadOneTable true read = LoadResult.skippedError := by
  unfold loadOneTable
  rw [if_pos rfl, h]

/- ——— Claims ——— -/

/-- C1, counterexample: the strict bound fails.  A draw stream inside
the generator ranges (base 100.05, jitter 1.0, split 0.7) makes the
first record carry query time 70.04, return time 30.02 and execution
time 100.05, whose discrepancy is exactly 0.01, not strictly less. -/
theorem c1_strict_counterexample :
    ((generateSampleData (fun n => if n = 0 then 1/8000 else 1/2)).head?.map fun r =>
      |r.query_time_ms + r.return_time_ms - r.execution_time_ms|) = some (1/100) ∧
    ¬ (∀ r ∈ generateSampleData (fun n => if n = 0 then 1/8000 else 1/2),
        |r.query_time_ms + r.return_time_ms - r.execution_time_ms| < 1/100) := by
  have h1 : ((generateSampleData (fun n => if n = 0 then 1/8000 else 1/2)).head?.map fun r =>
      |r.query_time_ms + r.return_time_ms - r.execution_time_ms|) = some (1/100) := by
    with_unfolding_all decide
  refine ⟨h1, fun hall => ?_⟩
  obtain ⟨r0, hh, habs⟩ := Option.map_eq_some'.1 h1
  have hlt := hall r0 (List.mem_of_mem_head? (Option.mem_def.2 hh))
  rw [habs] at hlt
  exact absurd hlt (lt_irrefl _)

/-- C1, amended: every record produced by the synthetic generator, the
real-data estimator, and the benchmark runner satisfies
|query_time_ms + return_time_ms - execution_time_ms| ≤ 0.01; equality
is possible only when two half-cent boundaries round away from each
other, so the strict form of the claim holds except on such boundary
draws. -/
theorem c1_rounding_identity :
    (∀ u : ℕ → ℚ, ∀ r ∈ generateSampleData u,
      |r.query_time_ms + r.return_time_ms - r.execution_time_ms| ≤ 1/100) ∧
    (∀ (v : ℕ → ℝ) (oc oic : ℕ), ∀ r ∈ estRecords v oc oic,
      |r.query_time_ms + r.return_time_ms - r.execution_time_ms| ≤ 1/100) ∧
    (∀ (qn db qtype : String) (ts rts : List ℚ) (rows : ℤ),
      |(benchRecord qn db qtype ts rts rows).query_time_ms +
        (benchRecord qn db qtype ts rts rows).return_time_ms -
        (benchRecord qn db qtype ts rts rows).execution_time_ms| ≤ 1/100) := by
  refine ⟨?_, ?_, ?_⟩
  · intro u r hr
    unfold generateSampleData at hr
    simp only [List.mem_append] at hr
    show CentOk r
    rcases hr with (hr | hr) | hr
    · exact mem_runPairs CentOk _ _ (fun a db n _ _ => simpleStep_cent a db u n) r hr
    · exact mem_runPairs CentOk _ _ (fun a db n _ _ => complexStep_cent a db u n) r hr
    · exact mem_runPairs CentOk _ _ (fun a db n _ _ => crudStep_cent a db u n) r hr
  · intro v oc oic r hr
    unfold estRecords at hr
    show CentOk r
    exact mem_runPairs CentOk _ _ (fun sc db n _ _ => estStep_cent sc db v n) r hr
  · intro qn db qtype ts rts rows
    have h := split_cent_bound (benchAvg ts) (benchAvg ts - benchAvg rts)
    rw [show benchAvg ts - (benchAvg ts - benchAvg rts) = benchAvg rts from by ring] at h
    exact h

/-- C1, witness: the one-cent bound at the first record of a concrete
run. -/
theorem c1_rounding_identity_witness :
    |(generateSampleData (fun _ => 0)).headI.query_time_ms +
      (generateSampleData (fun _ => 0)).headI.return_time_ms -
      (generateSampleData (fun _ => 0)).headI.execution_time_ms| ≤ 1/100 :=
  c1_rounding_identity.1 (fun _ => 0) _ (by with_unfolding_all decide)

/-- C2, counterexample: with every source table failed (row counts 0),
the first estimator record (scenario Q1 simple on PostgreSQL) has
log10(0 + 1) = 0 base time, hence execution_time_ms = 0, not > 0. -/
theorem c2_zero_exec_counterexample :
    ((estRecords (fun _ => 1/2) 0 0).head?.map fun r => r.execution_time_ms) = some 0 ∧
    ¬ (∀ r ∈ estRecords (fun _ => 1/2) 0 0, 0 < r.execution_time_ms) := by
  have h1 : ((estRecords (fun _ => 1/2) 0 0).head?.map fun r => r.execution_time_ms) =
      some 0 := by
    rw [estRecords, testScenarios]
    rw [runPairs]
    rw [databases, runDbs]
    simp [estSkip, estStep, estBaseTime, estJitterSplit, uniform, simpleCoeff, round2,
      roundHalfEven]
  refine ⟨h1, fun hall => ?_⟩
  obtain ⟨r0, hh, hexec⟩ := Option.map_eq_some'.1 h1
  have hlt := hall r0 (List.mem_of_mem_head? (Option.mem_def.2 hh))
  rw [hexec] at hlt
  exact absurd hlt (lt_irrefl _)

/-- C2, amended: rows_returned is nonnegative for every pipeline record
and execution_time_ms is nonnegative everywhere; it is strictly
positive for every synthetic-generator record, while the estimator
guarantees only nonnegativity (the degenerate zero-row scenarios store
execution_time_ms = 0). -/
theorem c2_pos_exec_rows :
    (∀ u : ℕ → ℚ, Draws u → ∀ r ∈ generateSampleData u,
      0 < r.execution_time_ms ∧ 0 ≤ r.rows_returned) ∧
    (∀ v : ℕ → ℝ, Draws v → ∀ oc oic : ℕ, ∀ r ∈ estRecords v oc oic,
      0 ≤ r.execution_time_ms ∧ 0 ≤ r.rows_returned) := by
  constructor
  · intro u hu r hr
    obtain ⟨⟨_, _, _, _, _, hrows⟩, hpos⟩ := generateSampleData_good u hu r hr
    exact ⟨hpos, hrows⟩
  · intro v hv oc oic r hr
    obtain ⟨hexec, _, _, _, _, hrows⟩ := estRecords_ok v hv oc oic r hr
    exact ⟨hexec, hrows⟩

/-- C2, witness: positivity at the first record of a concrete run. -/
theorem c2_pos_exec_rows_witness :
    0 < (generateSampleData (fun _ => 0)).headI.execution_time_ms ∧
    0 ≤ (generateSampleData (fun _ => 0)).headI.rows_returned :=
  c2_pos_exec_rows.1 (fun _ => 0) (fun n => ⟨le_refl 0, by norm_num⟩) _
    (by with_unfolding_all decide)

/-- C3, counterexample: the degenerate estimator record has execution
time 0, so the recomputed ratio return_time_ms / execution_time_ms *
100 is undefined (NaN in the Python float consumers, none here) and
does not lie in [0, 100]. -/
theorem c3_ratio_counterexample :
    ((estRecords (fun _ => 1/2) 0 0).head?.map returnRatio) = some none ∧
    ¬ (∀ r ∈ estRecords (fun _ => 1/2) 0 0,
        ∃ q, returnRatio r = some q ∧ 0 ≤ q ∧ q ≤ 100) := by
  have h1 : ((estRecords (fun _ => 1/2) 0 0).head?.map returnRatio) = some none := by
    rw [estRecords, testScenarios]
    rw [runPairs]
    rw [databases, runDbs]
    simp [estSkip, estStep, estBaseTime, estJitterSplit, uniform, simpleCoeff, round2,
      roundHalfEven, returnRatio]
  refine ⟨h1, fun hall => ?_⟩
  obtain ⟨r0, hh, hrat⟩ := Option.map_eq_some'.1 h1
  obtain ⟨q, hq, -, -⟩ := hall r0 (List.mem_of_mem_head? (Option.mem_def.2 hh))
  rw [hrat] at hq
  exact Option.noConfusion hq

/-- C3, amended: for every record with a nonzero stored execution time
(all generator records, and every estimator record outside the
degenerate zero-row case) the recomputed return ratio is defined and
lies in [0, 100], both raw (visualize.py) and rounded to two decimals
(app.py); for a zero execution time the ratio is undefined. -/
theorem c3_ratio_in_range :
    (∀ u : ℕ → ℚ, Draws u → ∀ r ∈ generateSampleData u,
      ∃ q, returnRatio r = some q ∧ 0 ≤ q ∧ q ≤ 100 ∧
        returnRatioApp r = some (round2 q) ∧ 0 ≤ round2 q ∧ round2 q ≤ 100) ∧
    (∀ v : ℕ → ℝ, Draws v → ∀ oc oic : ℕ, ∀ r ∈ estRecords v oc oic,
      r.execution_time_ms ≠ 0 →
      ∃ q, returnRatio r = some q ∧ 0 ≤ q ∧ q ≤ 100 ∧
        returnRatioApp r = some (round2 q) ∧ 0 ≤ round2 q ∧ round2 q ≤ 100) := by
  constructor
  · intro u hu r hr
    obtain ⟨hok, hpos⟩ := generateSampleData_good u hu r hr
    exact returnRatio_of_ok hok hpos
  · intro v hv oc oic r hr hne
    have hok := estRecords_ok v hv oc oic r hr
    have hpos : 0 < r.execution_time_ms := lt_of_le_of_ne hok.1 (Ne.symm hne)
    exact returnRatio_of_ok hok hpos

/-- C3, witness: the ratio bounds at the first record of a concrete
run. -/
theorem c3_ratio_in_range_witness :
    ∃ q, returnRatio (generateSampleData (fun _ => 0)).headI = some q ∧
      0 ≤ q ∧ q ≤ 100 ∧
      returnRatioApp (generateSampleData (fun _ => 0)).headI = some (round2 q) ∧
      0 ≤ round2 q ∧ round2 q ≤ 100 :=
  c3_ratio_in_range.1 (fun _ => 0) (fun n => ⟨le_refl 0, by norm_num⟩) _
    (by with_unfolding_all decide)

/-- C4: the generator is a pure function of its draw stream, and the
stream is fixed by np.random.seed(42), so two runs with the same seed
produce the same record list and byte-identical CSV output. -/
theorem c4_seed_determinism (u v : ℕ → ℚ) (h : ∀ n, u n = v n) :
    generateSampleData u = generateSampleData v ∧
    writeCsv (generateSampleData u) = writeCsv (generateSampleData v) := by
  have huv : u = v := funext h
  subst huv
  exact ⟨rfl, rfl⟩

/-- C4, witness: determinism applied to a concrete stream. -/
theorem c4_seed_determinism_witness :
    generateSampleData (fun _ => 0) = generateSampleData (fun _ => 0) ∧
    writeCsv (generateSampleData (fun _ => 0)) =
      writeCsv (generateSampleData (fun _ => 0)) :=
  c4_seed_determinism (fun _ => 0) (fun _ => 0) (fun _ => rfl)

/-- C5: for every draw stream the generator emits records whose
(query, database, query_type) keys are exactly one per pair of each
batch, minus the two skipped InfluxDB D1/U1 CRUD combinations; the
expected key list has no duplicates, omits exactly those two skipped
combinations, and has 78 entries. -/
theorem c5_one_record_per_pair : ∀ u : ℕ → ℚ,
    (generateSampleData u).map recordKey = expectedKeys ∧
    expectedKeys.Nodup ∧
    expectedKeys.count ("D1", "InfluxDB", "crud") = 0 ∧
    expectedKeys.count ("U1", "InfluxDB", "crud") = 0 ∧
    expectedKeys.length = 78 :=
  fun _ => ⟨rfl, by decide, by decide, by decide, by decide⟩

/-- C6: for every non-CRUD scenario, the estimator stored execution
time is the two-decimal rounding of the jittered base time, where the
base time is log10(row_count + 1) times the per-database coefficient of
the query type; the simple PostgreSQL_indexed coefficient is 40, and
the 10000-row example yields base time log10(10001) * 40, which is
approximately 160.0 (between 160 and 160.2). -/
theorem c6_log_scaling :
    (∀ (sc : Scenario) (db : String) (v : ℕ → ℝ) (n : ℕ),
      sc.qtype = "simple" ∨ sc.qtype = "complex" →
      (estStep sc db v n).1.execution_time_ms =
        round2 (estBaseTime sc.qtype db sc.baseRows * uniform 0.85 1.15 v n) ∧
      estBaseTime sc.qtype db sc.baseRows =
        Real.logb 10 (sc.baseRows + 1) *
          ((if sc.qtype = "simple" then simpleCoeff db else complexCoeff db : ℚ) : ℝ)) ∧
    simpleCoeff "PostgreSQL_indexed" = 40 ∧
    estBaseTime "simple" "PostgreSQL_indexed" 10000 = Real.logb 10 10001 * 40 ∧
    160 < estBaseTime "simple" "PostgreSQL_indexed" 10000 ∧
    estBaseTime "simple" "PostgreSQL_indexed" 10000 < 160.2 := by
  have hco : simpleCoeff "PostgreSQL_indexed" = 40 := by with_unfolding_all decide
  have heq : estBaseTime "simple" "PostgreSQL_indexed" 10000 = Real.logb 10 10001 * 40 := by
    unfold estBaseTime
    rw [if_pos rfl, hco]
    norm_num
  refine ⟨?_, hco, heq, ?_, ?_⟩
  · intro sc db v n hsc
    constructor
    · rcases hsc with h | h <;> simp [estStep, h, estJitterSplit]
    · rcases hsc with h | h <;> rw [h] <;> simp [estBaseTime]
  · rw [heq]
    have := logb_10001_gt
    linarith
  · rw [heq]
    have := logb_10001_lt
    linarith

/-- C6, witness: the scaling law applied to a concrete simple
scenario. -/
theorem c6_log_scaling_witness :
    (estStep ⟨"Q4", "simple", 3000⟩ "DuckDB" (fun _ => 0) 0).1.execution_time_ms =
      round2 (estBaseTime "simple" "DuckDB" 3000 * uniform 0.85 1.15 (fun _ => 0) 0) ∧
    estBaseTime "simple" "DuckDB" 3000 =
      Real.logb 10 ((3000 : ℝ) + 1) * ((simpleCoeff "DuckDB" : ℚ) : ℝ) := by
  have h := c6_log_scaling.1 ⟨"Q4", "simple", 3000⟩ "DuckDB" (fun _ => 0) 0 (Or.inl rfl)
  simpa using h

/-- C7, counterexample: at the all-zero draw stream and base 100 the
generator jitter/split step yields (90, 54, 36) while the estimator
step yields (85, 63.75, 21.25); the two steps are not equivalent. -/
theorem c7_jitter_split_counterexample :
    genJitterSplit "simple" (100 : ℚ) (fun _ => 0) 0 = (90, 54, 36) ∧
    estJitterSplit "simple" "PostgreSQL" (100 : ℚ) (fun _ => 0) 0 = (85, 63.75, 21.25) ∧
    genJitterSplit "simple" (100 : ℚ) (fun _ => 0) 0 ≠
      estJitterSplit "simple" "PostgreSQL" (100 : ℚ) (fun _ => 0) 0 :=
  ⟨by with_unfolding_all decide, by with_unfolding_all decide,
    by with_unfolding_all decide⟩

/-- C7, amended: the estimator step is not the generator step.  The
estimator multiplies the base by a uniform(0.85, 1.15) jitter (±15%)
and splits with a fixed ratio (0.9 for CRUD, 0.55 for InfluxDB, 0.75
otherwise), consuming no draw for the split; the generator multiplies
by a uniform(0.9, 1.1) jitter (±10%) and draws the split fraction from
the query-type range (0.6-0.8 simple, 0.7-0.85 complex, 0.85-0.95
CRUD). -/
theorem c7_jitter_split_shape :
    (∀ (qtype db : String) (base : ℚ) (u : ℕ → ℚ) (n : ℕ),
      estJitterSplit qtype db base u n =
        (base * (0.85 + 0.3 * u n),
         base * (0.85 + 0.3 * u n) *
           (if qtype = "crud" then 0.9 else if db = "InfluxDB" then 0.55 else 0.75),
         base * (0.85 + 0.3 * u n) *
           (1 - (if qtype = "crud" then 0.9 else if db = "InfluxDB" then 0.55
             else 0.75)))) ∧
    (∀ (qtype : String) (base : ℚ) (u : ℕ → ℚ) (n : ℕ),
      genJitterSplit qtype base u n =
        (base * (0.9 + 0.2 * u n),
         base * (0.9 + 0.2 * u n) *
           uniform (genSplitRange qtype).1 (genSplitRange qtype).2 u (n + 1),
         base * (0.9 + 0.2 * u n) *
           (1 - uniform (genSplitRange qtype).1 (genSplitRange qtype).2 u (n + 1)))) := by
  constructor
  · intro qtype db base u n
    have h : ∀ qr : ℚ,
        (base * (0.85 + (1.15 - 0.85) * u n),
         base * (0.85 + (1.15 - 0.85) * u n) * qr,
         base * (0.85 + (1.15 - 0.85) * u n) -
           base * (0.85 + (1.15 - 0.85) * u n) * qr) =
        (base * (0.85 + 0.3 * u n), base * (0.85 + 0.3 * u n) * qr,
         base * (0.85 + 0.3 * u n) * (1 - qr)) := by
      intro qr
      have e1 : base * (0.85 + (1.15 - 0.85) * u n) = base * (0.85 + 0.3 * u n) := by
        ring
      rw [e1]
      have e3 : base * (0.85 + 0.3 * u n) - base * (0.85 + 0.3 * u n) * qr =
          base * (0.85 + 0.3 * u n) * (1 - qr) := by ring
      rw [e3]
    exact h _
  · intro qtype base u n
    have h : ∀ s : ℚ,
        (base * (0.9 + (1.1 - 0.9) * u n),
         base * (0.9 + (1.1 - 0.9) * u n) * s,
         base * (0.9 + (1.1 - 0.9) * u n) - base * (0.9 + (1.1 - 0.9) * u n) * s) =
        (base * (0.9 + 0.2 * u n), base * (0.9 + 0.2 * u n) * s,
         base * (0.9 + 0.2 * u n) * (1 - s)) := by
      intro s
      have e1 : base * (0.9 + (1.1 - 0.9) * u n) = base * (0.9 + 0.2 * u n) := by ring
      rw [e1]
      have e3 : base * (0.9 + 0.2 * u n) - base * (0.9 + 0.2 * u n) * s =
          base * (0.9 + 0.2 * u n) * (1 - s) := by ring
      rw [e3]
    exact h _

/-- C8, counterexample: a file whose gbk read raises a non-decode error
(for example a parser error) but which utf-8 would read successfully is
not retried with the next encoding: the code skips the table with an
error message, while the claimed behavior would load it. -/
theorem c8_encoding_counterexample :
    loadOneTable true (fun e => if e = "gbk" then ReadOutcome.otherErr
      else ReadOutcome.ok (7 : ℕ)) = LoadResult.skippedError ∧
    tryEncodingsSpec (fun e => if e = "gbk" then ReadOutcome.otherErr
      else ReadOutcome.ok (7 : ℕ)) encodings = some 7 :=
  ⟨by decide, by decide⟩

/-- C8, amended: the loader tries the candidate encodings in order and
continues to the next one only on a UnicodeDecodeError; when no attempt
raises any other error it loads with the first encoding that parses
(matching the claimed fallback), a missing file is reported and
skipped, and any other read error is caught by the outer handler and
the table skipped, so no exception propagates out of table loading. -/
theorem c8_encoding_fallback :
    (∀ (T : Type) (read : String → ReadOutcome T),
      loadOneTable false read = LoadResult.skippedMissing) ∧
    (∀ (T : Type) (read : String → ReadOutcome T),
      (∀ e, read e ≠ ReadOutcome.otherErr) →
      loadOneTable true read = (match tryEncodingsSpec read encodings with
        | some t => LoadResult.loaded t
        | none => LoadResult.skippedUndecodable)) ∧
    (∀ (T : Type) (read : String → ReadOutcome T),
      tryEncodings read encodings = Except.error () →
      loadOneTable true read = LoadResult.skippedError) := by
  refine ⟨?_, ?_, ?_⟩
  · intro T read
    exact loadOneTable_missing read
  · intro T read h
    exact loadOneTable_of_no_otherErr read h
  · intro T read h
    exact loadOneTable_of_error read h

/-- C8, witness: the fallback applied to a concrete reader whose gbk
attempt raises UnicodeDecodeError and whose utf-8 attempt succeeds. -/
theorem c8_encoding_fallback_witness :
    loadOneTable true (fun e => if e = "gbk" then ReadOutcome.decodeErr
      else ReadOutcome.ok (5 : ℕ)) =
      (match tryEncodingsSpec (fun e => if e = "gbk" then ReadOutcome.decodeErr
        else ReadOutcome.ok (5 : ℕ)) encodings with
        | some t => LoadResult.loaded t
        | none => LoadResult.skippedUndecodable) :=
  c8_encoding_fallback.2.1 ℕ _ (fun e => by split_ifs <;> simp)

/-- C9: writing a list of records with separator-free string fields,
two-decimal timing fields and nonnegative row counts to the CSV format
(BOM, fixed header, one newline-terminated row per record) and reading
it back yields the original list field for field. -/
theorem c9_roundtrip (rs : List (Record ℚ)) (h : ∀ r ∈ rs, Serializable r) :
    readCsv (writeCsv rs) = some rs :=
  readCsv_writeCsv h

/-- C9, witness: a concrete one-record round trip. -/
theorem c9_roundtrip_witness :
    readCsv (writeCsv [⟨"Q1", "PostgreSQL", (12345 : ℚ)/100, (10000 : ℚ)/100,
      (2345 : ℚ)/100, 500, "simple"⟩]) =
      some [⟨"Q1", "PostgreSQL", (12345 : ℚ)/100, (10000 : ℚ)/100,
        (2345 : ℚ)/100, 500, "simple"⟩] :=
  c9_roundtrip _ (by
    intro r hr
    simp only [List.mem_singleton] at hr
    subst hr
    exact ⟨by decide, by decide, by decide, ⟨12345, rfl⟩, ⟨10000, rfl⟩, ⟨2345, rfl⟩,
      by norm_num⟩)

/-- C10: for every draw stream the generator emits exactly 78 records
in batch order: 40 simple, then 25 complex, then 13 CRUD, matching
8 * 5, 5 * 5 and 3 * 5 - 2. -/
theorem c10_batch_counts : ∀ u : ℕ → ℚ,
    (generateSampleData u).length = 78 ∧
    (generateSampleData u).map Record.query_type =
      List.replicate 40 "simple" ++ List.replicate 25 "complex" ++
        List.replicate 13 "crud" ∧
    simpleQueries.length * databases.length = 40 ∧
    complexQueries.length * databases.length = 25 ∧
    crudOperations.length * databases.length - 2 = 13 :=
  fun _ => ⟨rfl, rfl, rfl, rfl, rfl⟩

end DbProject
